import Mathlib

/-!
Verification of the syncat core (src/syncat/syncat.py) against its
natural-language specification.

The embedding models the pure content of the program:

* the ANSI output produced by `_dump_char_full`, `dump_screen` (tokens of
  type `Tok` instead of raw escape strings),
* Python's `int(s, 16)` / `int(s, 10)` parsing as used on color values and
  window titles,
* the `set_window_title_cb` row-completion side channel,
* the parent's child-supervision / PTY feed loop (`main`, lines 384-418) as
  a step function over an explicit state, driven by oracles for the results
  of `os.waitpid` and `os.read`,
* the child branch after fork (lines 333-352) and the startup path of
  `main` (lines 282-332).
-/

namespace Syncat

/-- Output tokens. Each constructor stands for one ANSI directive (or raw
character payload) that the Python code appends to its output: `fx.reset`,
named `fg`/`bg` attributes, `fg.truecolor`/`bg.truecolor`, the style flags,
the cell's character data, the newline written at line 217-219, and a marker
for `sys.stdout.flush()` (line 220). -/
inductive Tok where
  | reset
  | namedFg (name : String)
  | namedBg (name : String)
  | truecolorFg (r g b : Int)
  | truecolorBg (r g b : Int)
  | bold
  | italic
  | underscore
  | crossedOut
  | reverse
  | data (s : String)
  | newline
  | flush
deriving DecidableEq

/-- A pyte `Char`: the displayed data plus the styling attributes that
`_dump_char_full` (lines 151-184) reads: `fg`, `bg`, `bold`, `italics`,
`underscore`, `strikethrough`, `reverse`. -/
structure PChar where
  data : String
  fg : String
  bg : String
  bold : Bool
  italics : Bool
  underscore : Bool
  strikethrough : Bool
  reverse : Bool
deriving DecidableEq

/-- pyte's default cell: a space with `fg = "default"`, `bg = "default"` and
all style flags off.  Used by `dump_screen` as `screen.default_char`. -/
def default_char : PChar :=
  { data := " ", fg := "default", bg := "default", bold := false,
    italics := false, underscore := false, strikethrough := false,
    reverse := false }

/-- The decimal digit characters, split in two halves (only the set
matters; membership is what the parsers test). -/
def pyDigitsLow : List Char := ['0', '1', '2', '3', '4']

/-- Upper half of the decimal digit characters. -/
def pyDigitsHigh : List Char := ['5', '6', '7', '8', '9']

/-- The hexadecimal digit characters accepted by Python's `int(s, 16)`. -/
def pyHexDigitChars : List Char :=
  pyDigitsLow ++ pyDigitsHigh ++ ['a', 'b', 'c', 'd', 'e', 'f'] ++
    ['A', 'B', 'C', 'D', 'E', 'F']

/-- Whether `c` is a hexadecimal digit. -/
def isHexDigitP (c : Char) : Bool := c ∈ pyHexDigitChars

/-- Value of a hexadecimal digit character (0 for non-digits). -/
def hexVal (c : Char) : Nat :=
  match c with
  | '0' => 0 | '1' => 1 | '2' => 2 | '3' => 3 | '4' => 4
  | '5' => 5 | '6' => 6 | '7' => 7 | '8' => 8 | '9' => 9
  | 'a' => 10 | 'b' => 11 | 'c' => 12 | 'd' => 13 | 'e' => 14 | 'f' => 15
  | 'A' => 10 | 'B' => 11 | 'C' => 12 | 'D' => 13 | 'E' => 14 | 'F' => 15
  | _ => 0

/-- The decimal digit characters accepted by Python's `int(s)`. -/
def pyDecDigitChars : List Char := pyDigitsLow ++ pyDigitsHigh

/-- Whether `c` is a decimal digit. -/
def isDecDigitP (c : Char) : Bool := c ∈ pyDecDigitChars

/-- Value of a decimal digit character (0 for non-digits). -/
def decVal (c : Char) : Nat :=
  match c with
  | '0' => 0 | '1' => 1 | '2' => 2 | '3' => 3 | '4' => 4
  | '5' => 5 | '6' => 6 | '7' => 7 | '8' => 8 | '9' => 9
  | _ => 0

/-- ASCII whitespace stripped by Python's `int` before parsing (the color
values and titles handled by syncat are ASCII, so the ASCII subset of
Python's whitespace stripping suffices). -/
def isPySpace (c : Char) : Bool :=
  c ∈ [' ', '\t', '\n', '\r', '\x0b', '\x0c']

/-- Strip leading and trailing whitespace, as Python's `int` does. -/
def pyStrip (l : List Char) : List Char :=
  ((l.dropWhile isPySpace).reverse.dropWhile isPySpace).reverse

/-- Digit-run parser shared by the base-16 and base-10 models: consumes the
characters after the first digit, allowing a single underscore between two
digits (Python's numeric-literal underscore rule). `isD` recognizes a digit,
`dv` gives its value, `b` is the base. -/
def pyDigitsGo (b : Nat) (isD : Char → Bool) (dv : Char → Nat) :
    Nat → List Char → Option Nat
  | acc, [] => some acc
  | acc, c :: rest =>
    if c = '_' then
      match rest with
      | [] => none
      | d :: rest2 =>
        if isD d then pyDigitsGo b isD dv (b * acc + dv d) rest2 else none
    else if isD c then pyDigitsGo b isD dv (b * acc + dv c) rest else none

/-- Nonempty digit run: first character must be a digit (no leading
underscore), the rest is handled by `pyDigitsGo`. -/
def pyDigitsStart (b : Nat) (isD : Char → Bool) (dv : Char → Nat) :
    List Char → Option Nat
  | [] => none
  | c :: rest => if isD c then pyDigitsGo b isD dv (dv c) rest else none

/-- Magnitude parser of Python's `int(s, 16)` after sign handling: an
optional `0x`/`0X` prefix (optionally followed by one underscore), then a
hexadecimal digit run. -/
def pyHexNat (cs : List Char) : Option Nat :=
  match cs with
  | c0 :: c1 :: rest =>
    if c0 = '0' ∧ (c1 = 'x' ∨ c1 = 'X') then
      match rest with
      | [] => none
      | c2 :: rest2 =>
        if c2 = '_' then pyDigitsStart 16 isHexDigitP hexVal rest2
        else pyDigitsStart 16 isHexDigitP hexVal rest
    else pyDigitsStart 16 isHexDigitP hexVal cs
  | _ => pyDigitsStart 16 isHexDigitP hexVal cs

/-- Magnitude parser of Python's `int(s)` (base 10): a decimal digit run. -/
def pyDecNat (cs : List Char) : Option Nat :=
  pyDigitsStart 10 isDecDigitP decVal cs

/-- Whitespace stripping and sign handling common to Python's `int`
conversions: strip, then an optional single `+`/`-`, then the magnitude. -/
def pySigned (body : List Char → Option Nat) (s : String) : Option Int :=
  match pyStrip s.toList with
  | [] => none
  | c :: rest =>
    if c = '+' then (body rest).map Int.ofNat
    else if c = '-' then (body rest).map (fun n => -Int.ofNat n)
    else (body (c :: rest)).map Int.ofNat

/-- Python's `int(s, 16)`, as called at lines 169-171 and 175-177 on the
2-character slices of a color value; `none` models a raised `ValueError`. -/
def pyIntHex (s : String) : Option Int := pySigned pyHexNat s

/-- Python's `int(s)` (base 10), as called at line 231 on the window title;
`none` models a raised `ValueError`. -/
def pyIntDec (s : String) : Option Int := pySigned pyDecNat s

/-- Python string slicing `s[a:b]` for nonnegative bounds: positions `a` to
`b - 1`, clamped to the length of the string. -/
def pySlice (s : String) (a b : Nat) : String :=
  ⟨(s.toList.drop a).take (b - a)⟩

/-- Named color attributes of the external `ansi.color.fg` / `ansi.color.bg`
modules, looked up via `getattr` at lines 167 and 173.  Modelled from the
spec ("named color if recognized", §4.6): the standard and bright ANSI color
names plus `default`; these cover every name pyte stores in a cell. -/
def namedColors : List String :=
  ["black", "red", "green", "yellow", "blue", "magenta", "cyan", "white",
   "default", "brightblack", "brightred", "brightgreen", "brightyellow",
   "brightblue", "brightmagenta", "brightcyan", "brightwhite"]

/-- The truecolor fallback of `_dump_char_full` (lines 169-171, 175-177):
decode three channels from the slices `v[0:2]`, `v[2:4]`, `v[4:6]` with
Python's `int(·, 16)`; `none` models the `ValueError` raised by the first
slice that fails to parse. -/
def truecolorOf (v : String) : Option (Int × Int × Int) :=
  match pyIntHex (pySlice v 0 2), pyIntHex (pySlice v 2 4),
        pyIntHex (pySlice v 4 6) with
  | some r, some g, some b => some (r, g, b)
  | _, _, _ => none

/-- Foreground directive of `_dump_char_full` (lines 166-171): the named
attribute when `getattr(fg, v)` succeeds, otherwise `fg.truecolor` on the
decoded slices; `none` models the uncaught `ValueError` of the fallback. -/
def fg_directive (v : String) : Option Tok :=
  if v ∈ namedColors then some (Tok.namedFg v)
  else (truecolorOf v).map (fun t => Tok.truecolorFg t.1 t.2.1 t.2.2)

/-- Background directive of `_dump_char_full` (lines 172-177), analogous to
`fg_directive`. -/
def bg_directive (v : String) : Option Tok :=
  if v ∈ namedColors then some (Tok.namedBg v)
  else (truecolorOf v).map (fun t => Tok.truecolorBg t.1 t.2.1 t.2.2)

/-- Style-flag directives of `_dump_char_full` (lines 178-182), in source
order: bold, italic, underscore, crossed-out, reverse. -/
def flagToks (c : PChar) : List Tok :=
  (if c.bold then [Tok.bold] else []) ++
  (if c.italics then [Tok.italic] else []) ++
  (if c.underscore then [Tok.underscore] else []) ++
  (if c.strikethrough then [Tok.crossedOut] else []) ++
  (if c.reverse then [Tok.reverse] else [])

/-- Embeds `_dump_char_full` (lines 151-184).  The function builds the whole
message and performs a single `fh.write` at the end, so on an exception
(second component `false`) nothing at all is written for the cell (first
component `[]`).  On success the tokens are: full reset, foreground
directive, background directive, the set style flags, the cell data. -/
def dump_char_full (c : PChar) : List Tok × Bool :=
  match fg_directive c.fg with
  | none => ([], false)
  | some f =>
    match bg_directive c.bg with
    | none => ([], false)
    | some b => (Tok.reset :: f :: b :: (flagToks c ++ [Tok.data c.data]), true)

/-- A sparse pyte row, as iterated by `row.items()` at line 207: the
occupied columns with their cells, in the dictionary's iteration order. -/
def Row : Type := List (Nat × PChar)

/-- Repeat the dump of the default cell `n` times (the gap-filling loop at
lines 211-212); stops at the first failing dump. -/
def dumpN (dc : PChar) : Nat → List Tok × Bool
  | 0 => ([], true)
  | n + 1 =>
    match dump_char_full dc with
    | (t, false) => (t, false)
    | (t, true) =>
      let r := dumpN dc n
      (t ++ r.1, r.2)

/-- Embeds the per-row body of `dump_screen` (lines 206-220), with `cur` the
running column cursor `curidx`.  For each occupied cell: fill the gap
`range(curidx, charidx)` with default-cell dumps, dump the cell, advance the
cursor past it.  After the last cell, write `fx.reset + "\n"` exactly when
`curidx != screen.columns - 1`.  The Boolean is `false` when a cell dump
raised; the token list is what was written up to that point. -/
def dump_row (cols : Nat) (dc : PChar) : Nat → List (Nat × PChar) → List Tok × Bool
  | cur, [] =>
    (if (cur : Int) ≠ (cols : Int) - 1 then [Tok.reset, Tok.newline] else [],
     true)
  | cur, (charidx, c) :: rest =>
    match dumpN dc (charidx - cur) with
    | (t, false) => (t, false)
    | (t, true) =>
      match dump_char_full c with
      | (tc, false) => (t ++ tc, false)
      | (tc, true) =>
        let r := dump_row cols dc (charidx + 1) rest
        (t ++ tc ++ r.1, r.2)

/-- Insert a keyed row into a list sorted by key (ascending). -/
def insertSorted (p : Nat × Row) : List (Nat × Row) → List (Nat × Row)
  | [] => [p]
  | q :: qs => if p.1 ≤ q.1 then p :: q :: qs else q :: insertSorted p qs

/-- Python's `sorted(list(screen.buffer.items()))` (line 205): the buffer
items ordered by row index (keys are unique, so tuple comparison never
reaches the values). -/
def sortRows (buffer : List (Nat × Row)) : List (Nat × Row) :=
  buffer.foldr insertSorted []

/-- The row selection of line 205:
`sorted(list(screen.buffer.items()))[row_start:row_end]` — a POSITIONAL
slice of the sorted item list, not a filter on the row index. -/
def selectRows (buffer : List (Nat × Row)) (row_start row_end : Nat) :
    List (Nat × Row) :=
  ((sortRows buffer).drop row_start).take (row_end - row_start)

/-- A pyte `Screen` as read by `dump_screen`: its width, its sparse row
buffer (dictionary items in insertion order) and its default cell. -/
structure PScreen where
  columns : Nat
  buffer : List (Nat × Row)
  default_char : PChar

/-- Dump the selected rows in order, flushing after each row (line 220); a
raising row aborts the walk with the output written so far. -/
def dumpRows (s : PScreen) : List (Nat × Row) → List Tok × Bool
  | [] => ([], true)
  | (_, row) :: rest =>
    match dump_row s.columns s.default_char 0 row with
    | (t, false) => (t, false)
    | (t, true) =>
      let r := dumpRows s rest
      (t ++ Tok.flush :: r.1, r.2)

/-- Embeds `dump_screen` (lines 187-220). -/
def dump_screen (s : PScreen) (row_start row_end : Nat) : List Tok × Bool :=
  dumpRows s (selectRows s.buffer row_start row_end)

/-- Final value of the column cursor after the cell loop of a row (the value
`curidx` holds at line 217). -/
def rowFinalCursor : Nat → List (Nat × PChar) → Nat
  | cur, [] => cur
  | _, (charidx, _) :: rest => rowFinalCursor (charidx + 1) rest

/-- Reference rendering of a sparse row from the cursor position `cur`: the
dense sequence of cells the dump walks over — default cells in the gaps,
the occupied cells at their columns. -/
def refRowChars (dc : PChar) : Nat → List (Nat × PChar) → List PChar
  | _, [] => []
  | cur, (charidx, c) :: rest =>
    List.replicate (charidx - cur) dc ++ c :: refRowChars dc (charidx + 1) rest

/-- The occupied columns appear in strictly increasing order starting at
`cur` (the normal layout of a pyte row). -/
def IncFrom : Nat → List (Nat × PChar) → Prop
  | _, [] => True
  | cur, (charidx, _) :: rest => cur ≤ charidx ∧ IncFrom (charidx + 1) rest

/-- `IncFrom` is decidable, so concrete rows can be checked by `decide`. -/
def decIncFrom : ∀ cur cells, Decidable (IncFrom cur cells)
  | _, [] => .isTrue trivial
  | cur, (charidx, _) :: rest =>
    have h2 := decIncFrom (charidx + 1) rest
    @instDecidableAnd _ _ (Nat.decLe cur charidx) h2

instance : ∀ cur cells, Decidable (IncFrom cur cells) := decIncFrom

/-- Occupant of column `j` in a sparse row, if any. -/
def lookupCell (cells : List (Nat × PChar)) (j : Nat) : Option PChar :=
  (cells.find? (fun p => p.1 == j)).map Prod.snd

/-- The claim's shape for a truecolor value: the first six characters exist
and form three pairs of hexadecimal digits. -/
def threeHexBytePairs (v : String) : Bool :=
  match v.toList with
  | a :: b :: c :: d :: e :: f :: _ =>
    isHexDigitP a && isHexDigitP b && isHexDigitP c && isHexDigitP d &&
      isHexDigitP e && isHexDigitP f
  | _ => false

/-- Channel value decoded from the byte pair at positions `a`, `a + 1` of a
6-hex-digit color value. -/
def sliceVal (v : String) (a : Nat) : Int :=
  match (v.toList.drop a).take 2 with
  | [c, d] => ((16 * hexVal c + hexVal d : Nat) : Int)
  | _ => 0

/-- Shape of a (at most 2-character) slice accepted by Python's
`int(·, 16)`: two hex digits, a sign or whitespace followed by a hex digit,
a hex digit followed by whitespace, or a single hex digit. -/
def hexPairShape (s : String) : Bool :=
  match s.toList with
  | [a, b] =>
    (isHexDigitP a && isHexDigitP b) ||
      ((a = '+' || a = '-' || isPySpace a) && isHexDigitP b) ||
      (isHexDigitP a && isPySpace b)
  | [a] => isHexDigitP a
  | _ => false

/-- A color value on which `_dump_char_full` does not raise: recognized
name, or all three slices accepted by Python's base-16 parsing. -/
def goodColorShape (v : String) : Bool :=
  decide (v ∈ namedColors) ||
    (hexPairShape (pySlice v 0 2) && hexPairShape (pySlice v 2 4) &&
      hexPairShape (pySlice v 4 6))

/-- Embeds `set_window_title_cb` (lines 226-245) acting on the stashed
`syncat_cb_rowprev` attribute (`getattr(screen, "syncat_cb_rowprev", 0)`,
so 0 before the first trigger).  Returns `none` when `int(title)` raises
(the `RuntimeError` path), otherwise the new `rowprev` and the row range
`dump_screen` was invoked with (`some (0, row)`), if any. -/
def set_window_title_cb (rowprev : Int) (title : String) :
    Option (Int × Option (Int × Int)) :=
  match pyIntDec title with
  | none => none
  | some row =>
    if rowprev < row then some (row, some (0, row)) else some (rowprev, none)

/-- Run a sequence of window-title events through `set_window_title_cb`,
threading `rowprev` and recording each event's dump decision. -/
def runTitleEvents (rowprev : Int) :
    List String → Option (Int × List (Option (Int × Int)))
  | [] => some (rowprev, [])
  | t :: ts =>
    match set_window_title_cb rowprev t with
    | none => none
    | some (st, d) =>
      match runTitleEvents st ts with
      | none => none
      | some (fin, ds) => some (fin, d :: ds)

/-- The callback's pure core on already-parsed title values. -/
def runCore (s : Int) : List Int → Int × List (Option (Int × Int))
  | [] => (s, [])
  | v :: vs =>
    let d : Option (Int × Int) := if s < v then some (0, v) else none
    let s2 : Int := if s < v then v else s
    let r := runCore s2 vs
    (r.1, d :: r.2)

/-- Result of one `os.read(ptyfd, 1024)` call (lines 406-414): a chunk of
bytes, an `OSError` with `errno.EIO` (the expected end-of-output signal), or
any other `OSError`. -/
inductive ReadResult where
  | ok (chunk : List Nat)
  | eio
  | err
deriving DecidableEq

/-- State of the terminal feed loop (lines 384-418): the two flags, the
Python local `buf` (`none` while still unbound), the chunks fed to
`stream.feed` so far (in order), and the number of `os.waitpid` calls
issued. -/
structure LoopState where
  childAlive : Bool
  ptyEio : Bool
  buf : Option (List Nat)
  fed : List (List Nat)
  waitCalls : Nat
deriving DecidableEq

/-- Fatal errors the loop body can raise: the `RuntimeError` for a waitpid
PID mismatch (lines 390-393), re-raising a non-EIO `OSError` from the read
(line 414), and the `UnboundLocalError` from `stream.feed(buf)` when the
very first read raised (line 418). -/
inductive LoopErr where
  | pidMismatch (wpid : Int)
  | readRaise
  | unboundLocal
deriving DecidableEq

/-- Step 1 of a loop iteration (lines 387-401): when the child is still
alive, call `os.waitpid(pid, WNOHANG)` (modelled by the oracle value `w`:
`none` for a `(0, 0)` result, `some wpid` for a reaped PID).  A reported
PID different from `pid` raises; otherwise the child is marked dead. -/
def waitCheck (pid : Int) (w : Option Int) (st : LoopState) :
    Except LoopErr LoopState :=
  if st.childAlive then
    let st1 := { st with waitCalls := st.waitCalls + 1 }
    match w with
    | none => .ok st1
    | some wpid =>
      if wpid ≠ pid then .error (.pidMismatch wpid)
      else .ok { st1 with childAlive := false }
  else .ok st

/-- Step 2 of a loop iteration (lines 404-418): when the PTY has not
signaled end-of-output, read.  On success `buf` is rebound to the chunk; on
EIO `pty_eio` is set and `buf` is left as it was; on any other error the
exception propagates.  Then — because `stream.feed(buf)` at line 418 is
inside `if not pty_eio:` but after the whole `try/except` — the CURRENT
value of `buf` is fed in every non-raising case, including the EIO case
(stale chunk) and, if `buf` was never bound, an `UnboundLocalError`. -/
def readFeed (r : ReadResult) (st : LoopState) : Except LoopErr LoopState :=
  if st.ptyEio then .ok st
  else
    match r with
    | .ok chunk => .ok { st with buf := some chunk, fed := st.fed ++ [chunk] }
    | .eio =>
      match st.buf with
      | some b => .ok { st with ptyEio := true, fed := st.fed ++ [b] }
      | none => .error .unboundLocal
    | .err => .error .readRaise

/-- One full iteration of the feed loop body: wait check, then read/feed. -/
def loopStep (pid : Int) (w : Option Int) (r : ReadResult) (st : LoopState) :
    Except LoopErr LoopState :=
  (waitCheck pid w st).bind (readFeed r)

/-- Result of running the feed loop: normal exit with the final state, a
raised exception, or oracle exhaustion while the guard still holds (the
real loop would keep iterating). -/
inductive LoopResult where
  | finished (st : LoopState)
  | failed (e : LoopErr)
  | outOfFuel (st : LoopState)
deriving DecidableEq

/-- Embeds the loop `while child_alive or not pty_eio` (lines 386-418),
driven by a list of per-iteration oracle results for the waitpid and read
calls (an iteration consumes its pair's components only insofar as it
actually performs those calls). -/
def runLoop (pid : Int) : LoopState → List (Option Int × ReadResult) → LoopResult
  | st, steps =>
    if st.childAlive || !st.ptyEio then
      match steps with
      | [] => .outOfFuel st
      | (w, r) :: rest =>
        match loopStep pid w r st with
        | .error e => .failed e
        | .ok st2 => runLoop pid st2 rest
    else .finished st

/-- Loop state at entry to the loop (lines 384-385): child alive, no EIO
yet, `buf` unbound, nothing fed. -/
def initLoopState : LoopState :=
  { childAlive := true, ptyEio := false, buf := none, fed := [],
    waitCalls := 0 }

/-- Outcome of `os.execlp` in the child (line 351): the process image is
replaced, or the call raises `OSError` (Python's `exec*` functions raise on
failure; they never return an error code). -/
inductive ExecOutcome where
  | replaced
  | raises
deriving DecidableEq

/-- How the child branch ends. -/
inductive ChildEnd where
  | execed
  | exitStatus (n : Int)
  | uncaught
deriving DecidableEq

/-- Embeds the tail of the child branch (lines 351-352).  When `os.execlp`
succeeds the process image is replaced and no further Python runs.  When it
fails it RAISES `OSError`, so control skips `sys.exit(12)` — that line is
unreachable — and the exception propagates out of `main` uncaught. -/
def childAfterFork (e : ExecOutcome) : ChildEnd :=
  match e with
  | .replaced => .execed
  | .raises => .uncaught

/-- Process exit status produced by a child ending: `sys.exit(n)` exits with
`n`; an uncaught exception makes the interpreter print a traceback and exit
with status 1; a successful exec yields whatever the new image does. -/
def childExitStatus : ChildEnd → Option Int
  | .execed => none
  | .exitStatus n => some n
  | .uncaught => some 1

/-- Status of the target path, as the spec's startup precondition describes
it: present, a regular file, readable. -/
structure FileStatus where
  present : Bool
  regular : Bool
  readable : Bool
deriving DecidableEq

/-- Result of one `os.get_terminal_size` query (lines 311-319). -/
inductive SizeProbe where
  | ok (cols rows : Nat)
  | enotty
  | fail
deriving DecidableEq

/-- How far `main` gets before the fork. -/
inductive Startup where
  | spawned (cmdline : List String)
  | raised
deriving DecidableEq

/-- A single-quote character, built from its code point so the embedded
shell command can be assembled. -/
def sq : String := ⟨[Char.ofNat 39]⟩

/-- Embeds `construct_vim_cmdline` (lines 90-138): readonly flags, chrome
suppression, the input file, a redraw, a move to the last line, the
window-title side-channel command (with embedded ESC `\x1b` and BEL
`\x07`), and the quit command. -/
def construct_vim_cmdline (ifname : String) : List String :=
  ["vim", "-R", "-i", "NONE", "-c", "set noshowmode noruler noshowcmd",
   ifname, "+redraw", "+",
   "+silent execute \"!echo -n " ++ sq ++ "\x1b]0;\".line(" ++ sq ++ "." ++
     sq ++ ").\"\x07" ++ sq ++ "\"",
   "+q"]

/-- Embeds the startup path of `main` before the fork (lines 282-332): build
the Vim command line (line 290), probe the terminal size on stdout with an
ENOTTY fallback to stderr (lines 311-319, any other failure re-raised),
then call `pty_fork` (line 332).  The status of the target file is a
parameter so its (non-)influence can be stated: the source never examines
the path — the check exists only as the TODO at lines 286-287. -/
def mainStartup (argv1 : String) (file : FileStatus) (outP errP : SizeProbe) :
    Startup :=
  let cmdline := construct_vim_cmdline argv1
  match outP with
  | .ok _ _ => .spawned cmdline
  | .enotty =>
    match errP with
    | .ok _ _ => .spawned cmdline
    | _ => .raised
  | .fail => .raised

/-- Concrete red "A" cell used in the worked examples. -/
def cellA : PChar :=
  { data := "A", fg := "red", bg := "default", bold := false,
    italics := false, underscore := false, strikethrough := false,
    reverse := false }

/-- Concrete blue "B" cell used in the worked examples. -/
def cellB : PChar :=
  { data := "B", fg := "blue", bg := "default", bold := false,
    italics := false, underscore := false, strikethrough := false,
    reverse := false }

/-- A sparse screen whose buffer holds only rows 5 and 0 (in insertion
order), each with one occupied cell. -/
def demoScreen : PScreen :=
  { columns := 10, buffer := [(5, [(0, cellB)]), (0, [(0, cellA)])],
    default_char := default_char }

/-- The spec's 10-column example row: occupied only at columns 2 and 5. -/
def exampleRow : Row := [(2, cellA), (5, cellB)]

/-- A single-row screen around `exampleRow`. -/
def exampleScreen : PScreen :=
  { columns := 10, buffer := [(0, exampleRow)], default_char := default_char }

/-- A cell whose foreground is the five-character value "1a2b3": not a
recognized name, and its first six characters do not form three hex byte
pairs (there are only five), yet Python slicing clamps and `int("3", 16)`
parses the final 1-character slice. -/
def shortHexCell : PChar :=
  { data := "A", fg := "1a2b3", bg := "default", bold := false,
    italics := false, underscore := false, strikethrough := false,
    reverse := false }

/-- A cell whose foreground "zz" is neither a recognized name nor
parseable, so dumping it raises. -/
def zzCell : PChar :=
  { data := "A", fg := "zz", bg := "default", bold := false,
    italics := false, underscore := false, strikethrough := false,
    reverse := false }

end Syncat

namespace Syncat

/-! ## Claim C1 -/

/-- C1: the claim states every chunk successfully read from the PTY master
is fed to the terminal model exactly once and that after a failed read no
stale or undefined buffer is fed.  The code violates this: `stream.feed(buf)`
(line 418) sits after the `try/except`, still inside `if not pty_eio:`, so
it also runs when the read raised EIO.  First conjunct: a run whose reads
are one successful chunk `[65]` followed by the expected EIO feeds `[65]`
TWICE (the stale `buf` is re-fed after the failed read).  Second conjunct:
if the very first read raises EIO, `buf` is still unbound and the loop dies
with an `UnboundLocalError`. -/
theorem c1_stale_buffer_refeed :
    runLoop 7 initLoopState [(none, ReadResult.ok [65]), (some 7, ReadResult.eio)] =
      LoopResult.finished
        { childAlive := false, ptyEio := true, buf := some [65],
          fed := [[65], [65]], waitCalls := 2 } ∧
    runLoop 7 initLoopState [(some 7, ReadResult.eio)] =
      LoopResult.failed LoopErr.unboundLocal := by
  decide

/-! ## Claim C2 -/

/-- C2: the claim states that when exec of the highlighter fails the child
terminates with the documented exit status 12.  The code violates this:
`os.execlp` raises `OSError` on failure, so the `sys.exit(12)` at line 352
is unreachable; the child terminates via the uncaught exception, i.e. with
interpreter exit status 1, never 12. -/
theorem c2_exec_failure_exit_code :
    childAfterFork ExecOutcome.raises = ChildEnd.uncaught ∧
    childExitStatus (childAfterFork ExecOutcome.raises) = some 1 ∧
    childAfterFork ExecOutcome.raises ≠ ChildEnd.exitStatus 12 := by
  decide

/-! ## Claim C3 -/

/-- C3: the claim states `dump_screen(screen, 0, n)` processes exactly the
rows whose index lies in `[0, n)`, even for sparse storage.  The code
violates this: line 205 slices the sorted item list POSITIONALLY, so for a
buffer holding only rows 0 and 5, dumping rows `[0, 2)` selects and dumps
rows 0 AND 5 — row 5's index is not below 2.  The third conjunct evaluates
the full dump, showing row 5's cell is really written. -/
theorem c3_positional_slice_dumps_high_row :
    (selectRows demoScreen.buffer 0 2).map Prod.fst = [0, 5] ∧
    ¬(5 < 2) ∧
    dump_screen demoScreen 0 2 =
      ((dump_char_full cellA).1 ++ [Tok.reset, Tok.newline, Tok.flush] ++
        (dump_char_full cellB).1 ++ [Tok.reset, Tok.newline, Tok.flush],
       true) := by
  decide

/-! ## Claim C6 -/

/-- C6: the claim states the core checks that the target path exists and is
a regular readable file before any child is spawned, aborting on failure.
The code violates this: no such check exists (only the TODO at lines
286-287); `main` builds the command line and forks regardless.  First
conjunct: with a missing/irregular/unreadable target, startup still reaches
the fork and spawns Vim on that path.  Second conjunct: the startup outcome
is identical for a fully valid target — the file's status has no influence
at all. -/
theorem c6_no_target_file_check :
    mainStartup "missing.txt"
        { present := false, regular := false, readable := false }
        (SizeProbe.ok 80 24) (SizeProbe.ok 80 24) =
      Startup.spawned (construct_vim_cmdline "missing.txt") ∧
    mainStartup "missing.txt"
        { present := false, regular := false, readable := false }
        (SizeProbe.ok 80 24) (SizeProbe.ok 80 24) =
      mainStartup "missing.txt"
        { present := true, regular := true, readable := true }
        (SizeProbe.ok 80 24) (SizeProbe.ok 80 24) := by
  decide

/-! ## Claims C4 and C9: feed-loop invariants -/

/-- When the child is already dead, the wait check is skipped entirely: no
`os.waitpid` call is issued and the state is untouched (lines 387-388 guard
the call with `if child_alive:`). -/
theorem waitCheck_dead (pid : Int) (w : Option Int) (st : LoopState)
    (h : st.childAlive = false) : waitCheck pid w st = .ok st := by
  simp [waitCheck, h]

/-- The read/feed step never touches `child_alive` or the waitpid call
count. -/
theorem readFeed_preserves (r : ReadResult) (st st2 : LoopState)
    (h : readFeed r st = .ok st2) :
    st2.childAlive = st.childAlive ∧ st2.waitCalls = st.waitCalls := by
  unfold readFeed at h
  by_cases hpe : st.ptyEio = true
  · simp [hpe] at h
    subst h; exact ⟨rfl, rfl⟩
  · simp [hpe] at h
    cases r with
    | ok chunk =>
      simp at h
      subst h; exact ⟨rfl, rfl⟩
    | eio =>
      cases hb : st.buf with
      | some b => simp [hb] at h; subst h; exact ⟨rfl, rfl⟩
      | none => simp [hb] at h
    | err => simp at h

/-- C4: the terminal feed loop `while child_alive or not pty_eio` exits only
once BOTH conditions are down.  First conjunct: whenever the loop finishes
normally, the final state has `childAlive = false` and `ptyEio = true`.
Second conjunct: with the child already reaped but the PTY not yet at
end-of-output, an iteration still performs the read and feeds the chunk —
the loop keeps consuming buffered output after the child's death. -/
theorem c4_loop_termination :
    (∀ (pid : Int) (steps : List (Option Int × ReadResult)) (st fin : LoopState),
        runLoop pid st steps = LoopResult.finished fin →
        fin.childAlive = false ∧ fin.ptyEio = true) ∧
    (∀ (pid : Int) (st : LoopState) (w : Option Int) (chunk : List Nat)
        (rest : List (Option Int × ReadResult)),
        st.childAlive = false → st.ptyEio = false →
        runLoop pid st ((w, ReadResult.ok chunk) :: rest) =
          runLoop pid { st with buf := some chunk, fed := st.fed ++ [chunk] }
            rest) := by
  constructor
  · intro pid steps
    induction steps with
    | nil =>
      intro st fin h
      rw [runLoop] at h
      by_cases hc : (st.childAlive || !st.ptyEio) = true
      · rw [if_pos hc] at h; exact absurd h (by simp)
      · rw [if_neg hc] at h
        cases h
        simp only [Bool.or_eq_true, Bool.not_eq_true', not_or] at hc
        exact ⟨by simpa using hc.1, by simpa using hc.2⟩
    | cons p rest ih =>
      obtain ⟨w, r⟩ := p
      intro st fin h
      rw [runLoop] at h
      by_cases hc : (st.childAlive || !st.ptyEio) = true
      · rw [if_pos hc] at h
        rcases hs : loopStep pid w r st with e | st2 <;> rw [hs] at h
        · exact absurd h (by simp)
        · exact ih st2 fin h
      · rw [if_neg hc] at h
        cases h
        simp only [Bool.or_eq_true, Bool.not_eq_true', not_or] at hc
        exact ⟨by simpa using hc.1, by simpa using hc.2⟩
  · intro pid st w chunk rest hca hpe
    rw [runLoop]
    rw [if_pos (by simp [hca, hpe])]
    simp [loopStep, waitCheck_dead pid w st hca, Except.bind, readFeed, hpe]

/-- Witness for C4 at concrete inputs: a run whose child is reaped in the
first iteration and whose PTY signals EIO in the second finishes with both
flags down; and a dead-child, open-PTY state still consumes a read. -/
theorem c4_loop_termination_witness :
    (({ childAlive := false, ptyEio := true, buf := some [9],
        fed := [[9], [9]], waitCalls := 1 } : LoopState).childAlive = false ∧
      ({ childAlive := false, ptyEio := true, buf := some [9],
         fed := [[9], [9]], waitCalls := 1 } : LoopState).ptyEio = true) ∧
    runLoop 5 { childAlive := false, ptyEio := false, buf := none, fed := [],
                waitCalls := 0 } [(none, ReadResult.ok [7])] =
      runLoop 5 { childAlive := false, ptyEio := false, buf := some [7],
                  fed := [[7]], waitCalls := 0 } [] := by
  constructor
  · exact c4_loop_termination.1 5
      [(some 5, ReadResult.ok [9]), (none, ReadResult.eio)] initLoopState _
      (by decide)
  · have h := c4_loop_termination.2 5
      { childAlive := false, ptyEio := false, buf := none, fed := [],
        waitCalls := 0 } none [7] [] rfl rfl
    simpa using h

/-- C9: process-identity invariant of the supervision loop.  First
conjunct: if a wait call reports a terminated process whose PID differs
from the spawned one, the loop aborts at once with the fatal internal
error (lines 390-393) — it never continues.  Second conjunct: once the
child is no longer alive, no further wait call is ever issued (the
`os.waitpid` call count never grows on any continuation of the loop that
ends normally or exhausts its oracle). -/
theorem c9_waitpid_identity :
    (∀ (pid wpid : Int) (r : ReadResult) (st : LoopState)
        (rest : List (Option Int × ReadResult)),
        st.childAlive = true → wpid ≠ pid →
        runLoop pid st ((some wpid, r) :: rest) =
          LoopResult.failed (LoopErr.pidMismatch wpid)) ∧
    (∀ (pid : Int) (steps : List (Option Int × ReadResult)) (st fin : LoopState),
        st.childAlive = false →
        (runLoop pid st steps = LoopResult.finished fin ∨
         runLoop pid st steps = LoopResult.outOfFuel fin) →
        fin.waitCalls = st.waitCalls) := by
  constructor
  · intro pid wpid r st rest hca hw
    rw [runLoop]
    rw [if_pos (by simp [hca])]
    simp [loopStep, waitCheck, hca, hw, Except.bind]
  · intro pid steps
    induction steps with
    | nil =>
      intro st fin hca h
      rw [runLoop] at h
      by_cases hc : (st.childAlive || !st.ptyEio) = true
      · rw [if_pos hc] at h
        rcases h with h | h
        · exact absurd h (by simp)
        · cases h; rfl
      · rw [if_neg hc] at h
        rcases h with h | h
        · cases h; rfl
        · exact absurd h (by simp)
    | cons p rest ih =>
      obtain ⟨w, r⟩ := p
      intro st fin hca h
      rw [runLoop] at h
      by_cases hc : (st.childAlive || !st.ptyEio) = true
      · rw [if_pos hc] at h
        rw [loopStep, waitCheck_dead pid w st hca] at h
        simp only [Except.bind] at h
        rcases hrf : readFeed r st with e | st2 <;> rw [hrf] at h
        · rcases h with h | h <;> exact absurd h (by simp)
        · obtain ⟨hca2, hwc2⟩ := readFeed_preserves r st st2 hrf
          rw [ih st2 fin (by rw [hca2, hca]) h, hwc2]
      · rw [if_neg hc] at h
        rcases h with h | h
        · cases h; rfl
        · exact absurd h (by simp)

/-- Witness for C9 at concrete inputs: a wait reporting PID 6 for a child
spawned as PID 5 aborts immediately with the mismatch error; and a
finishing continuation started with a dead child leaves the waitpid call
count unchanged. -/
theorem c9_waitpid_identity_witness :
    runLoop 5 initLoopState [(some 6, ReadResult.eio)] =
      LoopResult.failed (LoopErr.pidMismatch 6) ∧
    ({ childAlive := false, ptyEio := true, buf := some [3],
       fed := [[3], [3]], waitCalls := 0 } : LoopState).waitCalls =
      ({ childAlive := false, ptyEio := false, buf := none, fed := [],
         waitCalls := 0 } : LoopState).waitCalls := by
  constructor
  · exact c9_waitpid_identity.1 5 6 ReadResult.eio initLoopState [] rfl
      (by decide)
  · exact c9_waitpid_identity.2 5
      [(none, ReadResult.ok [3]), (none, ReadResult.eio)]
      { childAlive := false, ptyEio := false, buf := none, fed := [],
        waitCalls := 0 } _ rfl (Or.inl (by decide))

/-! ## Claim C5: row-completion side channel -/

/-- On a title that parses, the callback's behavior is the pure core step:
trigger and update exactly on a strict increase. -/
theorem set_cb_parsed (s v : Int) (t : String) (h : pyIntDec t = some v) :
    set_window_title_cb s t =
      some (if s < v then v else s, if s < v then some (0, v) else none) := by
  by_cases hs : s < v <;> simp [set_window_title_cb, h, hs]

/-- A sequence of parsing titles runs like the pure core. -/
theorem runTitle_eq_core (titles : List String) (vs : List Int) (s : Int)
    (h : titles.map pyIntDec = vs.map some) :
    runTitleEvents s titles = some (runCore s vs) := by
  induction titles generalizing vs s with
  | nil =>
    cases vs with
    | nil => simp [runTitleEvents, runCore]
    | cons v vs2 => simp at h
  | cons t ts ih =>
    cases vs with
    | nil => simp at h
    | cons v vs2 =>
      simp only [List.map_cons, List.cons.injEq] at h
      obtain ⟨h1, h2⟩ := h
      rw [runTitleEvents, set_cb_parsed s v t h1]
      dsimp only
      rw [ih vs2 _ h2]
      simp [runCore]

/-- The `if` in the callback computes the running maximum. -/
theorem ite_lt_max (s v : Int) : (if s < v then v else s) = max s v := by
  by_cases h : s < v
  · rw [if_pos h, max_eq_right h.le]
  · rw [if_neg h, max_eq_left (le_of_not_lt h)]

/-- The stashed `rowprev` after a run is the running maximum of the start
value and all parsed titles. -/
theorem runCore_fst (vs : List Int) (s : Int) :
    (runCore s vs).1 = vs.foldl max s := by
  induction vs generalizing s with
  | nil => rfl
  | cons v vs2 ih => simp [runCore, ite_lt_max, ih]

/-- Per-event dump decisions: event `i` triggers a dump of rows
`[0, v i)` exactly when `v i` strictly exceeds the running maximum of the
start value and all previous events. -/
theorem runCore_snd (vs : List Int) (s : Int) :
    (runCore s vs).2 =
      (List.scanl max s vs).zipWith
        (fun m v => if m < v then some ((0 : Int), v) else none) vs := by
  induction vs generalizing s with
  | nil => simp [runCore]
  | cons v vs2 ih => simp [runCore, List.scanl_cons, ite_lt_max, ih]

/-- Dumps are deduplicated: a dump for a given row count happens at most
once in any run (every triggered value strictly exceeds the state, and the
state never decreases). -/
theorem runCore_count (vs : List Int) (s v : Int) :
    ((runCore s vs).2.countP (fun d => decide (d = some ((0 : Int), v))) ≤ 1) ∧
    (∀ w : Int, (some ((0 : Int), w)) ∈ (runCore s vs).2 → s < w) := by
  induction vs generalizing s with
  | nil => simp [runCore]
  | cons u vs2 ih =>
    by_cases h : s < u
    · refine ⟨?_, ?_⟩
      · by_cases hv : u = v
        · subst hv
          have hz : (runCore u vs2).2.countP
              (fun d => decide (d = some ((0 : Int), u))) = 0 := by
            rw [List.countP_eq_zero]
            intro d hd hdq
            have : d = some ((0 : Int), u) := by simpa using hdq
            subst this
            exact absurd ((ih u).2 u hd) (lt_irrefl u)
          simp [runCore, h, List.countP_cons, hz]
        · have hne : (some ((0 : Int), u) = some ((0 : Int), v)) = False := by
            simp [hv]
          simp [runCore, h, List.countP_cons, hne]
          exact (ih u).1
      · intro w hw
        rw [runCore] at hw
        simp only [h, if_true, List.mem_cons] at hw
        rcases hw with hw | hw
        · have : w = u := by simpa using hw
          subst this; exact h
        · exact lt_trans h ((ih u).2 w hw)
    · refine ⟨?_, ?_⟩
      · simp [runCore, h, List.countP_cons]
        exact (ih s).1
      · intro w hw
        rw [runCore] at hw
        simp only [h, if_false, List.mem_cons] at hw
        rcases hw with hw | hw
        · exact absurd hw (by simp)
        · exact (ih s).2 w hw

/-- C5: for every sequence of numeric window-title events (titles that
Python's `int` parses to the values `vs`), the run succeeds; the final
stashed row count is the running maximum of 0 and all values; event `i`
triggers `dump_screen(screen, 0, v i)` exactly when `v i` strictly exceeds
the running maximum of 0 and all earlier values (so equal or smaller values
trigger nothing and change no state); and for every value, at most one dump
with that row count occurs in the whole run — duplicates are
deduplicated. -/
theorem c5_title_side_channel (titles : List String) (vs : List Int)
    (h : titles.map pyIntDec = vs.map some) :
    runTitleEvents 0 titles =
      some (vs.foldl max 0,
        (List.scanl max 0 vs).zipWith
          (fun m v => if m < v then some ((0 : Int), v) else none) vs) ∧
    ∀ v : Int,
      ((List.scanl max 0 vs).zipWith
          (fun m v => if m < v then some ((0 : Int), v) else none) vs).countP
        (fun d => decide (d = some ((0 : Int), v))) ≤ 1 := by
  constructor
  · rw [runTitle_eq_core titles vs 0 h]
    exact congrArg some (Prod.ext (runCore_fst vs 0) (runCore_snd vs 0))
  · intro v
    rw [← runCore_snd vs 0]
    exact (runCore_count vs 0 v).1

/-- Witness for C5 at the concrete event sequence "3", "3", "5": the first
"3" triggers a dump of rows [0, 3), the duplicate "3" triggers nothing, "5"
triggers a dump of rows [0, 5); the dump for value 3 occurs exactly once. -/
theorem c5_title_side_channel_witness :
    runTitleEvents 0 ["3", "3", "5"] =
      some (5, [some ((0 : Int), 3), none, some ((0 : Int), 5)]) ∧
    ([some ((0 : Int), 3), none, some ((0 : Int), 5)].countP
        (fun d => decide (d = some ((0 : Int), (3 : Int)))) ≤ 1) := by
  have h := c5_title_side_channel ["3", "3", "5"] [3, 3, 5] (by decide)
  constructor
  · exact h.1.trans (by decide)
  · have h2 := h.2 3
    have he : (List.scanl max (0 : Int) [3, 3, 5]).zipWith
        (fun m v => if m < v then some ((0 : Int), v) else none) [3, 3, 5] =
        [some ((0 : Int), 3), none, some ((0 : Int), 5)] := by decide
    rw [he] at h2
    exact h2

/-! ## Claim C8: named vs. literal colors -/

/-- A hexadecimal digit is not whitespace, not a sign, not an underscore,
and not an `x`/`X` prefix character. -/
theorem hexFacts (c : Char) (h : isHexDigitP c = true) :
    isPySpace c = false ∧ c ≠ '+' ∧ c ≠ '-' ∧ c ≠ '_' ∧ c ≠ 'x' ∧ c ≠ 'X' := by
  have hm : c ∈ pyHexDigitChars := by simpa [isHexDigitP] using h
  simp only [pyHexDigitChars, pyDigitsLow, pyDigitsHigh, List.cons_append,
    List.nil_append] at hm
  fin_cases hm <;> decide

/-- Python's `int(·, 16)` on a string of exactly two hexadecimal digits
yields the byte value of the pair. -/
theorem pyIntHex_hexPair (a b : Char) (ha : isHexDigitP a = true)
    (hb : isHexDigitP b = true) :
    pyIntHex ⟨[a, b]⟩ = some (((16 * hexVal a + hexVal b : Nat)) : Int) := by
  obtain ⟨hsa, hpa, hma, _, _, _⟩ := hexFacts a ha
  obtain ⟨hsb, _, _, hub, hxb, hXb⟩ := hexFacts b hb
  have hcond : ¬(a = '0' ∧ (b = 'x' ∨ b = 'X')) := by
    rintro ⟨-, hb2 | hb2⟩
    exacts [hxb hb2, hXb hb2]
  simp [pyIntHex, pySigned, pyStrip, pyHexNat, pyDigitsStart, pyDigitsGo,
    ha, hb, hsa, hsb, hpa, hma, hub, hcond]

/-- The truecolor decoding of a 6-hex-digit value: the three channels are
the three byte pairs. -/
theorem truecolorOf_sixHex (v : String) (hlen : v.toList.length = 6)
    (hhex : ∀ ch ∈ v.toList, isHexDigitP ch = true) :
    truecolorOf v = some (sliceVal v 0, sliceVal v 2, sliceVal v 4) := by
  obtain ⟨l⟩ := v
  rcases l with _ | ⟨a, l⟩; · simp at hlen
  rcases l with _ | ⟨b, l⟩; · simp at hlen
  rcases l with _ | ⟨c, l⟩; · simp at hlen
  rcases l with _ | ⟨d, l⟩; · simp at hlen
  rcases l with _ | ⟨e, l⟩; · simp at hlen
  rcases l with _ | ⟨f, l⟩; · simp at hlen
  rcases l with _ | ⟨g, l⟩
  swap
  · simp at hlen
  have ha := hhex a (by simp [String.toList])
  have hb := hhex b (by simp [String.toList])
  have hc := hhex c (by simp [String.toList])
  have hd := hhex d (by simp [String.toList])
  have he := hhex e (by simp [String.toList])
  have hf := hhex f (by simp [String.toList])
  unfold truecolorOf
  rw [show pySlice ⟨[a, b, c, d, e, f]⟩ 0 2 = ⟨[a, b]⟩ from rfl,
    show pySlice ⟨[a, b, c, d, e, f]⟩ 2 4 = ⟨[c, d]⟩ from rfl,
    show pySlice ⟨[a, b, c, d, e, f]⟩ 4 6 = ⟨[e, f]⟩ from rfl,
    pyIntHex_hexPair a b ha hb, pyIntHex_hexPair c d hc hd,
    pyIntHex_hexPair e f he hf]
  rfl

/-- C8: for every dumped cell, after the full style reset the foreground
directive is the named-color directive when the value is a recognized name,
and otherwise — for a 6-hex-digit value — the 24-bit truecolor directive
whose channels are the three hexadecimal byte pairs; analogously for the
background.  Third conjunct: `_dump_char_full` emits exactly reset, then
the foreground directive, then the background directive, then the style
flags, then the character. -/
theorem c8_color_round_trip :
    (∀ v, v ∈ namedColors →
        fg_directive v = some (Tok.namedFg v) ∧
        bg_directive v = some (Tok.namedBg v)) ∧
    (∀ v, v ∉ namedColors → v.toList.length = 6 →
        (∀ ch ∈ v.toList, isHexDigitP ch = true) →
        fg_directive v =
          some (Tok.truecolorFg (sliceVal v 0) (sliceVal v 2) (sliceVal v 4)) ∧
        bg_directive v =
          some (Tok.truecolorBg (sliceVal v 0) (sliceVal v 2) (sliceVal v 4))) ∧
    (∀ (ch : PChar) (ft bt : Tok), fg_directive ch.fg = some ft →
        bg_directive ch.bg = some bt →
        dump_char_full ch =
          (Tok.reset :: ft :: bt :: (flagToks ch ++ [Tok.data ch.data]),
           true)) := by
  refine ⟨?_, ?_, ?_⟩
  · intro v hv
    exact ⟨by simp [fg_directive, hv], by simp [bg_directive, hv]⟩
  · intro v hv hlen hhex
    constructor <;>
      simp [fg_directive, bg_directive, hv, truecolorOf_sixHex v hlen hhex]
  · intro ch ft bt hf hb
    simp [dump_char_full, hf, hb]

/-- Witness for C8 at the spec's concrete values: foreground "red" yields
the named directive, foreground "1a2b3c" yields truecolor channels 0x1a,
0x2b, 0x3c, and the red example cell dumps as reset, named red foreground,
named default background, then its character. -/
theorem c8_color_round_trip_witness :
    fg_directive "red" = some (Tok.namedFg "red") ∧
    fg_directive "1a2b3c" = some (Tok.truecolorFg 26 43 60) ∧
    dump_char_full cellA =
      (Tok.reset :: Tok.namedFg "red" :: Tok.namedBg "default" ::
        (flagToks cellA ++ [Tok.data "A"]), true) := by
  refine ⟨?_, ?_, ?_⟩
  · exact (c8_color_round_trip.1 "red" (by decide)).1
  · have h :=
      (c8_color_round_trip.2.1 "1a2b3c" (by decide) (by decide) (by decide)).1
    exact h.trans (by decide)
  · have h := c8_color_round_trip.2.2 cellA (Tok.namedFg "red")
      (Tok.namedBg "default") (by decide) (by decide)
    exact h.trans (by decide)

/-! ## Claim C7: sparse-row fill and row termination -/

/-- Every occupied column of a strictly increasing row is at least the
starting cursor. -/
theorem IncFrom_ge (cells : List (Nat × PChar)) :
    ∀ cur, IncFrom cur cells → ∀ p ∈ cells, cur ≤ p.1 := by
  induction cells with
  | nil => intro cur _ p hp; cases hp
  | cons q rest ih =>
    obtain ⟨i, c⟩ := q
    intro cur h p hp
    obtain ⟨hci, hrest⟩ := h
    cases hp with
    | head => exact hci
    | tail _ hp2 =>
      exact le_trans (le_trans hci (Nat.le_succ i)) (ih (i + 1) hrest p hp2)

/-- The final cursor of a strictly increasing row is at least the starting
cursor. -/
theorem finCursor_ge (cells : List (Nat × PChar)) :
    ∀ cur, IncFrom cur cells → cur ≤ rowFinalCursor cur cells := by
  induction cells with
  | nil => intro cur _; exact le_refl cur
  | cons q rest ih =>
    obtain ⟨i, c⟩ := q
    intro cur h
    obtain ⟨hci, hrest⟩ := h
    exact le_trans (le_trans hci (Nat.le_succ i)) (ih (i + 1) hrest)

/-- Positional meaning of the reference rendering: for a strictly
increasing row, position `j` of the walked sequence holds the occupant of
column `j` when there is one and the default cell otherwise — the gaps are
filled with default cells. -/
theorem refRowChars_pos (dc : PChar) (cells : List (Nat × PChar)) :
    ∀ cur, IncFrom cur cells →
    refRowChars dc cur cells =
      (List.range' cur (rowFinalCursor cur cells - cur)).map
        (fun j => (lookupCell cells j).getD dc) := by
  induction cells with
  | nil =>
    intro cur _
    simp [refRowChars, rowFinalCursor]
  | cons q rest ih =>
    obtain ⟨i, c⟩ := q
    intro cur h
    obtain ⟨hci, hrest⟩ := h
    have hfin : i + 1 ≤ rowFinalCursor (i + 1) rest := finCursor_ge rest (i + 1) hrest
    have hge : ∀ p ∈ rest, i + 1 ≤ p.1 := IncFrom_ge rest (i + 1) hrest
    have hsplit : List.range' cur (rowFinalCursor (i + 1) rest - cur) =
        List.range' cur (i - cur) ++ List.range' i 1 ++
          List.range' (i + 1) (rowFinalCursor (i + 1) rest - (i + 1)) := by
      have e1 : rowFinalCursor (i + 1) rest - cur =
          rowFinalCursor (i + 1) rest - (i + 1) + 1 + (i - cur) := by omega
      rw [e1, ← List.range'_append cur (i - cur)
            (rowFinalCursor (i + 1) rest - (i + 1) + 1) 1]
      rw [show cur + 1 * (i - cur) = i from by omega]
      rw [show rowFinalCursor (i + 1) rest - (i + 1) + 1 =
            rowFinalCursor (i + 1) rest - (i + 1) + 1 from rfl]
      rw [← List.range'_append i 1 (rowFinalCursor (i + 1) rest - (i + 1)) 1]
      rw [show i + 1 * 1 = i + 1 from by omega]
      rw [List.append_assoc]
    have partA : (List.range' cur (i - cur)).map
        (fun j => (lookupCell ((i, c) :: rest) j).getD dc) =
        List.replicate (i - cur) dc := by
      have hpt : ∀ j ∈ List.range' cur (i - cur),
          (lookupCell ((i, c) :: rest) j).getD dc = dc := by
        intro j hj
        have hj2 : j < i := by
          have := List.mem_range'_1.mp hj
          omega
        have hhead : (i == j) = false := by
          simp [Nat.ne_of_gt hj2]
        have htail : List.find? (fun p => p.1 == j) rest = none := by
          rw [List.find?_eq_none]
          intro x hx
          have := hge x hx
          simp only [beq_iff_eq]
          omega
        simp [lookupCell, List.find?_cons, hhead, htail]
      rw [List.map_congr_left hpt, List.map_const', List.length_range']
    have partB : (List.range' i 1).map
        (fun j => (lookupCell ((i, c) :: rest) j).getD dc) = [c] := by
      rw [List.range'_one]
      simp [lookupCell, List.find?_cons]
    have partC : (List.range' (i + 1) (rowFinalCursor (i + 1) rest - (i + 1))).map
        (fun j => (lookupCell ((i, c) :: rest) j).getD dc) =
        refRowChars dc (i + 1) rest := by
      rw [ih (i + 1) hrest]
      apply List.map_congr_left
      intro j hj
      have hj2 : i + 1 ≤ j := (List.mem_range'_1.mp hj).1
      have hhead : (i == j) = false := by
        simp only [beq_eq_false_iff_ne, ne_eq]
        omega
      simp [lookupCell, List.find?_cons, hhead]
    rw [refRowChars]
    rw [show rowFinalCursor cur ((i, c) :: rest) =
          rowFinalCursor (i + 1) rest from rfl]
    rw [hsplit, List.map_append, List.map_append, partA, partB, partC]
    simp [List.append_assoc]

/-- When the default cell dumps without raising, the gap-filling loop emits
exactly `n` copies of its dump. -/
theorem dumpN_ok (dc : PChar) (h : (dump_char_full dc).2 = true) :
    ∀ n, dumpN dc n = ((List.replicate n (dump_char_full dc).1).flatten, true) := by
  intro n
  induction n with
  | zero => simp [dumpN]
  | succ n ih =>
    rw [dumpN]
    rcases hE : dump_char_full dc with ⟨t, ok⟩
    rw [hE] at h
    simp only at h
    subst h
    simp only []
    rw [ih, hE]
    simp [List.replicate_succ]

/-- Structure of a successful row dump: the walked cell sequence (gaps
filled with default cells) dumped in order, then `fx.reset` and a newline
exactly when the final cursor differs from `columns - 1`. -/
theorem dump_row_ok (cols : Nat) (dc : PChar)
    (hdc : (dump_char_full dc).2 = true) (cells : List (Nat × PChar)) :
    ∀ cur, (∀ p ∈ cells, (dump_char_full p.2).2 = true) →
    dump_row cols dc cur cells =
      (((refRowChars dc cur cells).map (fun ch => (dump_char_full ch).1)).flatten ++
        (if (rowFinalCursor cur cells : Int) ≠ (cols : Int) - 1 then
          [Tok.reset, Tok.newline] else []), true) := by
  induction cells with
  | nil =>
    intro cur _
    simp [dump_row, refRowChars, rowFinalCursor]
  | cons q rest ih =>
    obtain ⟨i, c⟩ := q
    intro cur hc
    have hcHead : (dump_char_full c).2 = true := hc (i, c) (by simp)
    have hcRest : ∀ p ∈ rest, (dump_char_full p.2).2 = true := by
      intro p hp; exact hc p (by simp [hp])
    rw [dump_row, dumpN_ok dc hdc (i - cur)]
    rcases hE : dump_char_full c with ⟨tc, okc⟩
    rw [hE] at hcHead
    simp only at hcHead
    subst hcHead
    simp only []
    rw [ih (i + 1) hcRest]
    rw [show rowFinalCursor cur ((i, c) :: rest) =
          rowFinalCursor (i + 1) rest from rfl]
    simp [refRowChars, List.map_append, List.flatten_append,
      List.map_replicate, List.append_assoc, hE]

/-- C7 (amended): dumping a row fills every gap between the running cursor
and the next occupied column with the default cell's dump, walks the
occupied cells in order, and — after the last occupied cell — emits a style
reset followed by a line terminator IF AND ONLY IF the cursor DIFFERS from
the last column index `columns - 1` (not: is less than it); the output is
flushed after each row.  First conjunct: the full structure of a successful
row dump.  Second conjunct: the walked sequence really is
occupant-or-default at every column up to the final cursor.  Third
conjunct: the spec's 10-column example — occupied at columns 2 and 5,
columns 0-1 and 3-4 filled with default dumps, terminated by reset and
newline, with final cursor 6 differing from 9.  Fourth conjunct: the
screen-level dump of that row appends a flush after the row. -/
theorem c7_sparse_row_fill :
    (∀ (cols : Nat) (dc : PChar) (cells : List (Nat × PChar)),
        (dump_char_full dc).2 = true →
        (∀ p ∈ cells, (dump_char_full p.2).2 = true) →
        dump_row cols dc 0 cells =
          (((refRowChars dc 0 cells).map
              (fun ch => (dump_char_full ch).1)).flatten ++
            (if (rowFinalCursor 0 cells : Int) ≠ (cols : Int) - 1 then
              [Tok.reset, Tok.newline] else []), true)) ∧
    (∀ (dc : PChar) (cells : List (Nat × PChar)), IncFrom 0 cells →
        refRowChars dc 0 cells =
          (List.range' 0 (rowFinalCursor 0 cells)).map
            (fun j => (lookupCell cells j).getD dc)) ∧
    (dump_row 10 default_char 0 exampleRow =
        ((dump_char_full default_char).1 ++ (dump_char_full default_char).1 ++
          (dump_char_full cellA).1 ++ (dump_char_full default_char).1 ++
          (dump_char_full default_char).1 ++ (dump_char_full cellB).1 ++
          [Tok.reset, Tok.newline], true) ∧
      rowFinalCursor 0 exampleRow = 6 ∧ ((6 : Int) ≠ (10 : Int) - 1)) ∧
    dump_screen exampleScreen 0 1 =
      ((dump_row 10 default_char 0 exampleRow).1 ++ [Tok.flush], true) := by
  refine ⟨?_, ?_, by decide, by decide⟩
  · intro cols dc cells h1 h2
    exact dump_row_ok cols dc h1 cells 0 h2
  · intro dc cells h
    have := refRowChars_pos dc cells 0 h
    simpa using this

/-- Witness for C7 at a concrete row (10 columns, one cell at column 2):
the structure theorem and the positional theorem instantiated with their
hypotheses discharged. -/
theorem c7_sparse_row_fill_witness :
    dump_row 10 default_char 0 [(2, cellA)] =
      (((refRowChars default_char 0 [(2, cellA)]).map
          (fun ch => (dump_char_full ch).1)).flatten ++
        (if (rowFinalCursor 0 [(2, cellA)] : Int) ≠ (10 : Int) - 1 then
          [Tok.reset, Tok.newline] else []), true) ∧
    refRowChars default_char 0 [(2, cellA)] =
      (List.range' 0 (rowFinalCursor 0 [(2, cellA)])).map
        (fun j => (lookupCell [(2, cellA)] j).getD default_char) := by
  exact ⟨c7_sparse_row_fill.1 10 default_char [(2, cellA)] (by decide)
      (by decide),
    c7_sparse_row_fill.2.1 default_char [(2, cellA)] (by decide)⟩

/-- C7 counterexample: the claim as stated ties the reset + terminator to
the cursor being LESS than the last column index.  For a 10-column row
whose only occupied cell sits in the final column 9, the cursor ends at 10,
which is not less than 9 — yet the code emits the reset and newline, since
its actual test is `curidx != screen.columns - 1` and `10 ≠ 9`. -/
theorem c7_full_last_column_counterexample :
    dump_row 10 default_char 0 [(9, cellA)] =
      ((List.replicate 9 (dump_char_full default_char).1).flatten ++
        (dump_char_full cellA).1 ++ [Tok.reset, Tok.newline], true) ∧
    rowFinalCursor 0 [(9, cellA)] = 10 ∧
    ¬((10 : Int) < (10 : Int) - 1) := by
  decide

/-! ## Claim C10: totality domain of the cell dumper -/

/-- A whitespace character is not a hexadecimal digit and not a sign. -/
theorem spaceFacts (c : Char) (h : isPySpace c = true) :
    isHexDigitP c = false ∧ c ≠ '+' ∧ c ≠ '-' := by
  have hm : c ∈ [' ', '\t', '\n', '\r', '\x0b', '\x0c'] := by
    simpa [isPySpace] using h
  fin_cases hm <;> decide

/-- Building a string from an explicit character list gives back that
list. -/
theorem string_toList_mk (l : List Char) : (⟨l⟩ : String).toList = l := rfl

/-- Sign/strip layer, case: everything stripped away. -/
theorem pySigned_eq_nil (body : List Char → Option Nat) (l : List Char)
    (h : pyStrip l = []) : pySigned body ⟨l⟩ = none := by
  simp [pySigned, string_toList_mk, h]

/-- Sign/strip layer, case: leading `+`. -/
theorem pySigned_eq_plus (body : List Char → Option Nat) (l rest : List Char)
    (h : pyStrip l = '+' :: rest) :
    pySigned body ⟨l⟩ = (body rest).map Int.ofNat := by
  simp [pySigned, string_toList_mk, h]

/-- Sign/strip layer, case: leading `-`. -/
theorem pySigned_eq_minus (body : List Char → Option Nat) (l rest : List Char)
    (h : pyStrip l = '-' :: rest) :
    pySigned body ⟨l⟩ = (body rest).map (fun n => -Int.ofNat n) := by
  simp [pySigned, string_toList_mk, h,
    show ¬(('-' : Char) = '+') from by decide]

/-- Sign/strip layer, case: no sign. -/
theorem pySigned_eq_other (body : List Char → Option Nat) (l : List Char)
    (c : Char) (rest : List Char) (h : pyStrip l = c :: rest)
    (hp : c ≠ '+') (hm : c ≠ '-') :
    pySigned body ⟨l⟩ = (body (c :: rest)).map Int.ofNat := by
  simp [pySigned, string_toList_mk, h, hp, hm]

/-- `hexPairShape` on a two-character string, unfolded. -/
theorem hexPairShape_two (a b : Char) :
    hexPairShape ⟨[a, b]⟩ =
      ((isHexDigitP a && isHexDigitP b) ||
        ((decide (a = '+') || decide (a = '-') || isPySpace a) && isHexDigitP b) ||
        (isHexDigitP a && isPySpace b)) := rfl

/-- `hexPairShape` on a one-character string, unfolded. -/
theorem hexPairShape_one (a : Char) : hexPairShape ⟨[a]⟩ = isHexDigitP a := rfl

/-- Acceptance of Python's `int(·, 16)` on a single character: exactly the
hexadecimal digits. -/
theorem pyIntHex_shape_one (a : Char) :
    (pyIntHex ⟨[a]⟩).isSome = hexPairShape ⟨[a]⟩ := by
  rw [hexPairShape_one, pyIntHex]
  by_cases hsa : isPySpace a = true
  · obtain ⟨hha, _, _⟩ := spaceFacts a hsa
    have hstrip : pyStrip [a] = [] := by simp [pyStrip, hsa]
    rw [pySigned_eq_nil pyHexNat [a] hstrip, hha]
    rfl
  · have hsa2 : isPySpace a = false := by simpa using hsa
    have hstrip : pyStrip [a] = [a] := by simp [pyStrip, hsa2]
    by_cases hpa : a = '+'
    · subst hpa
      rw [pySigned_eq_plus pyHexNat ['+'] [] hstrip]
      decide
    by_cases hma : a = '-'
    · subst hma
      rw [pySigned_eq_minus pyHexNat ['-'] [] hstrip]
      decide
    rw [pySigned_eq_other pyHexNat [a] a [] hstrip hpa hma,
      Option.isSome_map']
    by_cases hha : isHexDigitP a = true <;>
      simp [pyHexNat, pyDigitsStart, pyDigitsGo, hha]

/-- Acceptance of Python's `int(·, 16)` on two characters: two hex digits,
or a sign or whitespace character next to a single hex digit. -/
theorem pyIntHex_shape_two (a b : Char) :
    (pyIntHex ⟨[a, b]⟩).isSome = hexPairShape ⟨[a, b]⟩ := by
  rw [hexPairShape_two, pyIntHex]
  by_cases hsa : isPySpace a = true <;> by_cases hsb : isPySpace b = true
  · -- both whitespace: stripped to nothing, and no disjunct can hold
    obtain ⟨hha, _, _⟩ := spaceFacts a hsa
    obtain ⟨hhb, _, _⟩ := spaceFacts b hsb
    have hstrip : pyStrip [a, b] = [] := by simp [pyStrip, hsa, hsb]
    rw [pySigned_eq_nil pyHexNat [a, b] hstrip, hha, hhb, hsa, hsb]
    simp
  · -- leading whitespace: reduces to the single-character case on `b`
    obtain ⟨hha, _, _⟩ := spaceFacts a hsa
    have hsb2 : isPySpace b = false := by simpa using hsb
    have hstrip : pyStrip [a, b] = [b] := by simp [pyStrip, hsa, hsb2]
    by_cases hpb : b = '+'
    · subst hpb
      rw [pySigned_eq_plus pyHexNat [a, '+'] [] hstrip]
      simp [pyHexNat, pyDigitsStart, hha, hsa,
        show isHexDigitP '+' = false from by decide]
    by_cases hmb : b = '-'
    · subst hmb
      rw [pySigned_eq_minus pyHexNat [a, '-'] [] hstrip]
      simp [pyHexNat, pyDigitsStart, hha, hsa,
        show isHexDigitP '-' = false from by decide]
    rw [pySigned_eq_other pyHexNat [a, b] b [] hstrip hpb hmb,
      Option.isSome_map']
    by_cases hhb : isHexDigitP b = true <;>
      simp [pyHexNat, pyDigitsStart, pyDigitsGo, hhb, hha, hsa]
  · -- trailing whitespace: reduces to the single-character case on `a`
    obtain ⟨hhb, _, _⟩ := spaceFacts b hsb
    have hsa2 : isPySpace a = false := by simpa using hsa
    have hstrip : pyStrip [a, b] = [a] := by simp [pyStrip, hsa2, hsb]
    by_cases hpa : a = '+'
    · subst hpa
      rw [pySigned_eq_plus pyHexNat ['+', b] [] hstrip]
      simp [pyHexNat, pyDigitsStart, hhb, hsb,
        show isHexDigitP '+' = false from by decide]
    by_cases hma : a = '-'
    · subst hma
      rw [pySigned_eq_minus pyHexNat ['-', b] [] hstrip]
      simp [pyHexNat, pyDigitsStart, hhb, hsb,
        show isHexDigitP '-' = false from by decide]
    rw [pySigned_eq_other pyHexNat [a, b] a [] hstrip hpa hma,
      Option.isSome_map']
    by_cases hha : isHexDigitP a = true <;>
      simp [pyHexNat, pyDigitsStart, pyDigitsGo, hha, hhb, hsb]
  · -- no whitespace: sign handling, the 0x prefix, or a plain digit run
    have hsa2 : isPySpace a = false := by simpa using hsa
    have hsb2 : isPySpace b = false := by simpa using hsb
    have hstrip : pyStrip [a, b] = [a, b] := by simp [pyStrip, hsa2, hsb2]
    by_cases hpa : a = '+'
    · subst hpa
      rw [pySigned_eq_plus pyHexNat ['+', b] [b] hstrip, Option.isSome_map']
      by_cases hhb : isHexDigitP b = true <;>
        simp [pyHexNat, pyDigitsStart, pyDigitsGo, hhb, hsb2,
          show isHexDigitP '+' = false from by decide]
    by_cases hma : a = '-'
    · subst hma
      rw [pySigned_eq_minus pyHexNat ['-', b] [b] hstrip, Option.isSome_map']
      by_cases hhb : isHexDigitP b = true <;>
        simp [pyHexNat, pyDigitsStart, pyDigitsGo, hhb, hsb2,
          show isHexDigitP '-' = false from by decide]
    rw [pySigned_eq_other pyHexNat [a, b] a [b] hstrip hpa hma,
      Option.isSome_map']
    by_cases hab : a = '0' ∧ (b = 'x' ∨ b = 'X')
    · obtain ⟨rfl, hb2 | hb2⟩ := hab <;> subst hb2 <;> decide
    · rw [show pyHexNat [a, b] = pyDigitsStart 16 isHexDigitP hexVal [a, b]
            from by rw [pyHexNat, if_neg hab]]
      by_cases hha : isHexDigitP a = true
      · by_cases hub : b = '_'
        · subst hub
          simp [pyDigitsStart, pyDigitsGo, hha, hsa2, hsb2, hpa, hma,
            show isHexDigitP '_' = false from by decide]
        · by_cases hhb : isHexDigitP b = true <;>
            simp [pyDigitsStart, pyDigitsGo, hha, hub, hhb, hsa2, hsb2,
              hpa, hma]
      · simp [pyDigitsStart, hha, hpa, hma, hsa2]

/-- Acceptance of the hex parser on any slice of at most two characters
matches the explicit shape description. -/
theorem pyIntHex_shape (l : List Char) (h : l.length ≤ 2) :
    (pyIntHex ⟨l⟩).isSome = hexPairShape ⟨l⟩ := by
  match l with
  | [] => decide
  | [a] => exact pyIntHex_shape_one a
  | [a, b] => exact pyIntHex_shape_two a b
  | a :: b :: x :: t => simp at h

/-- The truecolor decoder succeeds exactly when all three slices are of
accepted shape. -/
theorem truecolorOf_isSome (v : String) :
    (truecolorOf v).isSome =
      (hexPairShape (pySlice v 0 2) && hexPairShape (pySlice v 2 4) &&
        hexPairShape (pySlice v 4 6)) := by
  have h1 := pyIntHex_shape ((v.toList.drop 0).take 2)
    (by rw [List.length_take]; exact min_le_left _ _)
  have h2 := pyIntHex_shape ((v.toList.drop 2).take 2)
    (by rw [List.length_take]; exact min_le_left _ _)
  have h3 := pyIntHex_shape ((v.toList.drop 4).take 2)
    (by rw [List.length_take]; exact min_le_left _ _)
  rw [truecolorOf]
  rw [show pySlice v 0 2 = ⟨(v.toList.drop 0).take 2⟩ from rfl,
    show pySlice v 2 4 = ⟨(v.toList.drop 2).take 2⟩ from rfl,
    show pySlice v 4 6 = ⟨(v.toList.drop 4).take 2⟩ from rfl]
  rw [← h1, ← h2, ← h3]
  rcases hx : pyIntHex ⟨(v.toList.drop 0).take 2⟩ with _ | r <;>
    rcases hy : pyIntHex ⟨(v.toList.drop 2).take 2⟩ with _ | g <;>
      rcases hz : pyIntHex ⟨(v.toList.drop 4).take 2⟩ with _ | b <;>
        simp [hx, hy, hz]

/-- The foreground directive succeeds exactly on values of good shape. -/
theorem fg_directive_isSome (v : String) :
    (fg_directive v).isSome = goodColorShape v := by
  rw [fg_directive, goodColorShape]
  by_cases hv : v ∈ namedColors
  · simp [hv]
  · have hnv : decide (v ∈ namedColors) = false := by simpa using hv
    rw [if_neg hv, hnv, Bool.false_or, Option.isSome_map']
    exact truecolorOf_isSome v

/-- The background directive succeeds exactly on values of good shape. -/
theorem bg_directive_isSome (v : String) :
    (bg_directive v).isSome = goodColorShape v := by
  rw [bg_directive, goodColorShape]
  by_cases hv : v ∈ namedColors
  · simp [hv]
  · have hnv : decide (v ∈ namedColors) = false := by simpa using hv
    rw [if_neg hv, hnv, Bool.false_or, Option.isSome_map']
    exact truecolorOf_isSome v

/-- C10 (amended): `_dump_char_full` raises exactly when some color value
is of bad shape — neither an attribute of the named-color table nor a
string whose slices `[0:2]`, `[2:4]`, `[4:6]` are each accepted by Python's
base-16 parsing; acceptance covers, besides two hex digits, a single hex
digit (short slice of a 4- or 5-character value) and a hex digit paired
with a sign or whitespace character.  Second conjunct: when it raises,
nothing at all is emitted for the cell. -/
theorem c10_dump_totality :
    (∀ ch : PChar,
        (dump_char_full ch).2 =
          (goodColorShape ch.fg && goodColorShape ch.bg)) ∧
    (∀ ch : PChar, (dump_char_full ch).2 = false →
        (dump_char_full ch).1 = []) := by
  constructor
  · intro ch
    rw [dump_char_full]
    rcases hf : fg_directive ch.fg with _ | f
    · have := fg_directive_isSome ch.fg
      rw [hf] at this
      simp [← this]
    · rcases hb : bg_directive ch.bg with _ | b
      · have := bg_directive_isSome ch.bg
        rw [hb] at this
        have hgood := fg_directive_isSome ch.fg
        rw [hf] at hgood
        simp [← this, ← hgood]
      · have h1 := fg_directive_isSome ch.fg
        have h2 := bg_directive_isSome ch.bg
        rw [hf] at h1
        rw [hb] at h2
        simp [← h1, ← h2]
  · intro ch h
    rw [dump_char_full] at h ⊢
    rcases hf : fg_directive ch.fg with _ | f
    · rfl
    · rcases hb : bg_directive ch.bg with _ | b
      · rfl
      · simp [hf, hb] at h

/-- Witness for C10's amended statement at a concrete raising cell: a
foreground of "zz" (not named, not parseable) makes the dump raise and emit
nothing. -/
theorem c10_dump_totality_witness :
    (dump_char_full zzCell).2 =
      (goodColorShape "zz" && goodColorShape "default") ∧
    (dump_char_full zzCell).1 = [] := by
  constructor
  · exact c10_dump_totality.1 zzCell
  · exact c10_dump_totality.2 zzCell (by decide)

/-- C10 counterexample: the claim says a value that is not a table
attribute and whose FIRST SIX characters do not form three hex byte pairs
makes the dump raise.  The five-character value "1a2b3" has no six
characters and no three byte pairs, yet the dump succeeds: Python slicing
clamps, `int("3", 16)` parses the one-character final slice, and the cell
is emitted as truecolor (0x1a, 0x2b, 0x3). -/
theorem c10_short_hex_counterexample :
    (decide ("1a2b3" ∈ namedColors) = false) ∧
    threeHexBytePairs "1a2b3" = false ∧
    dump_char_full shortHexCell =
      ([Tok.reset, Tok.truecolorFg 26 43 3, Tok.namedBg "default",
        Tok.data "A"], true) := by
  decide

end Syncat
